import Mathlib

/-!
Verification of the `smartmeter` repository: a shallow embedding, in Lean 4, of
the parts of the code that the specification's claims are about, together with
theorems settling each claim.

Conventions used throughout:
* Python strings and byte strings are modelled as `List Char` (the telegrams are
  ASCII, and each byte of a frame is modelled by the character with that code).
* Python `int`s are modelled as `ℤ`, Python floats that hold wall-clock seconds
  (`time.monotonic()`) are modelled as `ℤ` (whole seconds); nothing in the code
  under verification depends on fractional seconds.
* Fallible Python code (code that may raise) is modelled with `Except`/`Option`:
  a raised exception is an `Except.error`.
* Python dicts built by the meter parser are modelled as association lists with
  `String` keys and no duplicate keys.
-/

namespace Smartmeter

/-! ## Load hysteresis controller (`smartmeter/aux.py`)

`Load` keeps the fields of `aux.Load` that take part in `Load.process`:
`max_power`, `switch_on`, `hold_timer` (configuration), the pin state
(`is_on`, the value behind the `is_on`/`is_off` properties) and
`state_start_time` (`None` until first assigned, hence `Option`).
The `name`/`address`/gpio plumbing is I/O and is not modelled. -/

structure Load where
  max_power : ℤ
  switch_on : ℤ
  hold_timer : ℤ
  is_on : Bool
  state_start_time : Option ℤ
  deriving DecidableEq, Repr

/-- `aux.Load.__init__`: the output device is created with
`initial_value=False` (and `DummyLoad` starts with `_status = 0`), and
`self.state_start_time: Optional[float] = None`. -/
def initLoad (max_power switch_on hold_timer : ℤ) : Load :=
  { max_power := max_power, switch_on := switch_on, hold_timer := hold_timer,
    is_on := false, state_start_time := none }

/-- `aux.Load.state_time`: `if self.state_start_time: return
int(monotonic() - self.state_start_time)` — the guard is Python truthiness, so
both `None` and a start time of exactly `0` fall through and the property
returns `None`. `now` stands for `monotonic()`. -/
def Load.stateTime (l : Load) (now : ℤ) : Option ℤ :=
  match l.state_start_time with
  | none => none
  | some t => if t = 0 then none else some (now - t)

/-- `aux.Load.on`: records the transition time and drives the pin high. -/
def Load.switchOn (l : Load) (now : ℤ) : Load :=
  { l with state_start_time := some now, is_on := true }

/-- `aux.Load.off`: records the transition time and drives the pin low. -/
def Load.switchOff (l : Load) (now : ℤ) : Load :=
  { l with state_start_time := some now, is_on := false }

/-- Errors that an evaluation of `Load.process` can raise. -/
inductive PyErr where
  /-- `TypeError` from comparing `None` with an `int`
  (`self.state_time > self.hold_timer` when `state_time` is `None`). -/
  | noneCompare : PyErr
  /-- `TypeError` raised by `Status()`: `utils.Status.__init__` demands the
  two positional arguments `load` and `meter` (and itself calls
  `Borg.__init__(self, load, meter)` even though `Borg.__init__` accepts no
  arguments), so the zero-argument construction `Status()` performed at the
  end of `Load.process` (and in `main.dispatcher`/`main.read_current_sensors`)
  raises `TypeError` unconditionally. -/
  | statusInit : PyErr
  deriving DecidableEq, Repr

/-- The construction `Status()` as performed by `aux.py` line 163: always a
`TypeError` (see `PyErr.statusInit`). -/
def statusInit : Except PyErr Unit := .error .statusInit

/-- The guard `((self.state_time is not None and self.state_time >
self.hold_timer) or self.state_time is None)` of the OFF→ON branch. -/
def stGuard (st : Option ℤ) (hold : ℤ) : Bool :=
  match st with
  | some v => decide (hold < v)
  | none => true

/-- Tail of `aux.Load.process` (lines 162-170): the shared-status update
followed by `return self.is_on`.  Since `Status()` raises (see `statusInit`),
the update raises before the `return` is reached; the load object keeps the
state the branches above gave it. -/
def Load.statusAndReturn (l : Load) : Load × Except PyErr Bool :=
  (l, match statusInit with
      | .error e => .error e
      | .ok _ => .ok l.is_on)

/-- `aux.Load.process(injected, consumed)`, with `now` standing for the value
`monotonic()` would return during the call.  The result is the load object
after the call (Python mutates `self` in place) together with either the
returned boolean or the exception raised.  `switch_off = 100` is the local
constant of the source.  The ON→OFF guard
`self.is_on and consumed > switch_off and self.state_time > self.hold_timer`
evaluates left to right, so the `None > int` `TypeError` can only occur once
`self.is_on` and `consumed > switch_off` both hold. -/
def Load.process (now injected consumed : ℤ) (l : Load) : Load × Except PyErr Bool :=
  let switch_off : ℤ := 100
  let st := l.stateTime now
  if l.is_on = false ∧ l.max_power ≤ injected ∧ stGuard st l.hold_timer = true then
    (l.switchOn now).statusAndReturn
  else if l.is_on = true ∧ switch_off < consumed then
    match st with
    | none => (l, .error .noneCompare)
    | some v =>
      if l.hold_timer < v then
        (l.switchOff now).statusAndReturn
      else
        l.statusAndReturn
  else
    l.statusAndReturn

/-- Reachability invariant of a `Load`: every recorded state-start time is a
positive instant (transitions happen at `monotonic() > 0`), and an `ON` load
has a recorded state-start time (it got `ON` through `Load.on`). -/
def LoadInv (l : Load) : Prop :=
  (∀ t, l.state_start_time = some t → 0 < t) ∧
  (l.is_on = true → l.state_start_time ≠ none)

/-! ## CRC-16 (LHA/ARC variant) and telegram validation (`smartmeter/digimeter.py`)

`crccheck.crc.Crc16Lha`: the reflected CRC-16 with polynomial `0xA001`
(`0x8005` bit-reversed), initial value `0`, no final xor.  One input byte is
xor-ed into the register and followed by eight shift/conditional-xor rounds. -/

def crc16Step (c : ℕ) : ℕ := if c % 2 = 1 then (c / 2) ^^^ 0xA001 else c / 2

def crc16Byte (c b : ℕ) : ℕ := crc16Step^[8] (c ^^^ b)

/-- `Crc16Lha.calc` over a byte string (bytes given as their values). -/
def crc16Lha (bs : List ℕ) : ℕ := bs.foldl crc16Byte 0

/-- ASCII whitespace as stripped by Python `bytes.strip()`/`int()`. -/
def isPyWS (c : Char) : Bool :=
  c = ' ' || c = '\t' || c = '\n' || c = '\r' || c = '\x0b' || c = '\x0c'

def stripWS (s : List Char) : List Char :=
  ((s.dropWhile isPyWS).reverse.dropWhile isPyWS).reverse

def hexDigitVal (c : Char) : Option ℕ :=
  if '0' ≤ c ∧ c ≤ '9' then some (c.toNat - 48)
  else if 'a' ≤ c ∧ c ≤ 'f' then some (c.toNat - 87)
  else if 'A' ≤ c ∧ c ≤ 'F' then some (c.toNat - 55)
  else none

/-- Digit run after the first digit, per Python numeric-literal rules: a
single underscore may stand between two digits, never doubled or trailing. -/
def digitsTail (dig : Char → Option ℕ) : List Char → Option (List ℕ)
  | [] => some []
  | c :: rest =>
    if c = '_' then
      match rest with
      | c2 :: rest2 =>
        match dig c2 with
        | some v => (digitsTail dig rest2).map (v :: ·)
        | none => none
      | [] => none
    else
      match dig c with
      | some v => (digitsTail dig rest).map (v :: ·)
      | none => none

/-- A full digit run: at least one digit, underscores only between digits. -/
def digitsToEnd (dig : Char → Option ℕ) : List Char → Option (List ℕ)
  | [] => none
  | c :: rest =>
    match dig c with
    | some v => (digitsTail dig rest).map (v :: ·)
    | none => none

def valOfDigits (base : ℕ) (ds : List ℕ) : ℕ := ds.foldl (fun a d => base * a + d) 0

/-- The optional leading sign of a Python numeric literal: the sign as an
integer and the remaining characters. -/
def signSplit (s : List Char) : ℤ × List Char :=
  match s with
  | '+' :: r => (1, r)
  | '-' :: r => (-1, r)
  | _ => (1, s)

/-- Models Python `int(s, 16)` on an ASCII string: surrounding whitespace,
an optional sign, an optional `0x`/`0X` prefix (an underscore may follow the
prefix directly), then hex digits with single underscores between digits.
`none` models the `ValueError` raised on any other input. -/
def pyIntHex (s : List Char) : Option ℤ :=
  let s1 := stripWS s
  let sp := signSplit s1
  let body : Option (List ℕ) :=
    match sp.2 with
    | '0' :: c :: rest =>
      if c = 'x' ∨ c = 'X' then
        match rest with
        | '_' :: r2 => digitsToEnd hexDigitVal r2
        | _ => digitsToEnd hexDigitVal rest
      else digitsToEnd hexDigitVal sp.2
    | _ => digitsToEnd hexDigitVal sp.2
  match body with
  | some ds => some (sp.1 * valOfDigits 16 ds)
  | none => none

/-- Hex digits, fuelled so the recursion is structural (and hence computes
inside the kernel); `toHexChars` supplies enough fuel, so the `fuel = 0` case
is only ever reached with `n = 0`. -/
def toHexCharsAux : ℕ → ℕ → List Char
  | 0, n => [Nat.digitChar n]
  | fuel + 1, n =>
    if n < 16 then [Nat.digitChar n]
    else toHexCharsAux fuel (n / 16) ++ [Nat.digitChar (n % 16)]

/-- Hex digits of a natural number, most significant first (no leading zeros,
`0` rendered as `"0"`), lowercase — the digits of Python `hex()`. -/
def toHexChars (n : ℕ) : List Char := toHexCharsAux n n

/-- Python `hex(n)`: `0x…` for `n ≥ 0`, `-0x…` for `n < 0`. -/
def pyHex (n : ℤ) : List Char :=
  if n < 0 then '-' :: '0' :: 'x' :: toHexChars n.natAbs
  else '0' :: 'x' :: toHexChars n.toNat

/-- Value of a hex digit character as rendered by `Nat.digitChar` (inverse of
the rendering, used to prove `toHexChars` injective). -/
def unHexDigit (c : Char) : ℕ :=
  if c.isDigit then c.toNat - 48 else c.toNat - 87

def fromHexChars (l : List Char) : ℕ :=
  l.foldl (fun a c => 16 * a + unHexDigit c) 0

/-- `digimeter.check_msg(raw_msg)`.  `pos = raw_msg.find(b"!")` is `-1` when
no `'!'` occurs, in which case `raw_msg[: pos + 1]` is empty and
`raw_msg[pos + 1 :]` is the whole frame.  The provided CRC is
`hex(int(trailer.strip(), 16))` — every byte after the `'!'`, stripped — and
is compared, as a hex string, with `hex` of the computed CRC; a `ValueError`
(or any other exception) during the computation yields `False`. -/
def check_msg (raw : List Char) : Bool :=
  let split : List Char × List Char :=
    match raw.findIdx? (· == '!') with
    | some i => (raw.take (i + 1), raw.drop (i + 1))
    | none => (raw.take 0, raw.drop 0)
  match pyIntHex (stripWS split.2) with
  | none => false
  | some provided => pyHex provided == pyHex (crc16Lha (split.1.map Char.toNat))

/-- The CRC check as the claim words it: the value parsed as hexadecimal from
the FOUR characters following the `'!'` compared with the CRC computed over
the prefix up to and including the `'!'`.  This definition follows the claim
text, not the source; it exists to be compared with `check_msg`. -/
def check_msg_claim (raw : List Char) : Bool :=
  match raw.findIdx? (· == '!') with
  | some i =>
    match pyIntHex ((raw.drop (i + 1)).take 4) with
    | some v => decide (v = (crc16Lha ((raw.take (i + 1)).map Char.toNat) : ℤ))
    | none => false
  | none => false

/-! ## Telegram framing (`digimeter.read_serial` / `digimeter.fake_serial`)

Lines are the values of `serial_port.readline()` (respectively the lines of
the replay file), modelled as ASCII character lists.  The exceptional paths of
`read_serial` (serial errors, undecodable bytes) reset the framer and produce
nothing; the model covers the normal path, which is the one that can reach
`parse`. -/

/-- `START_OF_TELEGRAM = re.compile(r"^\/FLU\d{1}\\")`, used via `.search`;
with `^` and no MULTILINE flag this matches exactly at the string start. -/
def startOfTelegram (line : List Char) : Bool :=
  match line with
  | '/' :: 'F' :: 'L' :: 'U' :: d :: '\\' :: _ => d.isDigit
  | _ => false

def isUpperAlnum (c : Char) : Bool :=
  ('A' ≤ c && c ≤ 'Z') || ('0' ≤ c && c ≤ '9')

/-- `END_OF_TELEGRAM = re.compile(r"^![A-Z0-9]{4}")`, used via `.search`. -/
def endOfTelegram (line : List Char) : Bool :=
  match line with
  | '!' :: a :: b :: c :: d :: _ =>
    isUpperAlnum a && isUpperAlnum b && isUpperAlnum c && isUpperAlnum d
  | _ => false

/-- Loop state of `read_serial`: `start_of_telegram_detected` and the
accumulated `telegram` buffer. -/
structure FramerState where
  start_of_telegram_detected : Bool
  telegram : List Char
  deriving DecidableEq, Repr

/-- One iteration of the `read_serial` line loop.  Returns the new state and
the frames handed to `parse` during the iteration (`parse` is called exactly
when `check_msg(telegram)` returned `True`). -/
def readSerialStep (st : FramerState) (line : List Char) : FramerState × List (List Char) :=
  let st1 := if startOfTelegram line then FramerState.mk true [] else st
  let st2 :=
    if st1.start_of_telegram_detected then
      { st1 with telegram := st1.telegram ++ line }
    else st1
  if endOfTelegram line then
    ({ st2 with start_of_telegram_detected := false },
     if check_msg st2.telegram then [st2.telegram] else [])
  else (st2, [])

def readSerialRun : FramerState → List (List Char) → List (List Char)
  | _, [] => []
  | st, line :: rest =>
    let p := readSerialStep st line
    p.2 ++ readSerialRun p.1 rest

/-- The frames `read_serial` passes to `parse` while consuming `lines`,
starting from the initial state (`start_of_telegram_detected = False`,
empty buffer). -/
def readSerialParsed (lines : List (List Char)) : List (List Char) :=
  readSerialRun ⟨false, []⟩ lines

/-- One iteration of the `fake_serial` line loop (state: the `telegram`
string).  A start-of-telegram line restarts the buffer, any other line is
appended, and an end-of-telegram line hands the buffer to `parse`
unconditionally — `fake_serial` never calls `check_msg`. -/
def fakeSerialStep (telegram : List Char) (line : List Char) : List Char × List (List Char) :=
  let tg := if startOfTelegram line then line else telegram ++ line
  if endOfTelegram line then (tg, [tg]) else (tg, [])

def fakeSerialRun : List Char → List (List Char) → List (List Char)
  | _, [] => []
  | tg, line :: rest =>
    let p := fakeSerialStep tg line
    p.2 ++ fakeSerialRun p.1 rest

/-- The frames `fake_serial` passes to `parse` over one pass of the replay
file (`telegram = ""` initially). -/
def fakeSerialParsed (lines : List (List Char)) : List (List Char) :=
  fakeSerialRun [] lines

/-! ## Timestamp codec (`digimeter.convert_timestamp`) -/

/-- Python slice `l[a:b]` (for `0 ≤ a ≤ b`): truncates, never raises. -/
def pySlice (l : List Char) (a b : ℕ) : List Char := (l.drop a).take (b - a)

/-- `tz_hour_map = {"S": "02:00", "W": "01:00"}`; `none` models the `KeyError`
raised on any other key. -/
def tzHourMap (c : Char) : Option (List Char) :=
  if c = 'S' then some "02:00".toList
  else if c = 'W' then some "01:00".toList
  else none

/-- `tz_zone_map = {"S": "CEST", "W": "CET"}`. -/
def tzZoneMap (c : Char) : Option (List Char) :=
  if c = 'S' then some "CEST".toList
  else if c = 'W' then some "CET".toList
  else none

/-- `digimeter.convert_timestamp(timestamp, format)`.  An empty timestamp
raises `ValueError`; otherwise the components are Python slices of the input,
`timestamp[-1]` is its last character, and both timezone map lookups happen
before the format branch (an unknown trailing letter raises `KeyError` for
either output format).  `format` is `some "iso8601"` or anything else
(`None` in every in-repo caller that wants the zoned format). -/
def convert_timestamp (ts : List Char) (format : Option (List Char)) :
    Except String (List Char) :=
  if ts = [] then .error "ValueError: Timestamp cannot be empty."
  else
    let year := '2' :: '0' :: pySlice ts 0 2
    let month := pySlice ts 2 4
    let day := pySlice ts 4 6
    let hour := pySlice ts 6 8
    let minute := pySlice ts 8 10
    let second := pySlice ts 10 12
    let lastc := ts.getLastD ' '
    match tzHourMap lastc, tzZoneMap lastc with
    | some tz_hours, some tz_zone =>
      if format = some "iso8601".toList then
        .ok (year ++ ['-'] ++ month ++ ['-'] ++ day ++ ['T'] ++ hour ++ [':'] ++
          minute ++ [':'] ++ second ++ ['+'] ++ tz_hours)
      else
        .ok (year ++ ['-'] ++ month ++ ['-'] ++ day ++ [' '] ++ hour ++ [':'] ++
          minute ++ [':'] ++ second ++ [' '] ++ tz_zone)
    | _, _ => .error "KeyError"

/-! ## Type coercion (`utils.autoformat`) -/

/-- A Python value of the three types `autoformat` distinguishes.  Python
floats are modelled as the exact rational the decimal literal denotes (no
claim under verification depends on binary rounding). -/
inductive PyVal where
  | str (s : List Char)
  | int (n : ℤ)
  | float (q : ℚ)
  deriving DecidableEq, Repr

/-- `re.match(r"^\d+$", s)` as a Boolean (ASCII digits): all digits and
nonempty, where Python `$` also matches just before one trailing newline. -/
def reFullDigits (s : List Char) : Bool :=
  (!s.isEmpty && s.all Char.isDigit) ||
  (match s.getLast? with
   | some c => c = '\n' && (!s.dropLast.isEmpty && s.dropLast.all Char.isDigit)
   | none => false)

/-- `re.match(r"\d+\.\d+", s)` as a Boolean: one or more digits, a dot and a
digit, at the start of the string (the rest of the string is unconstrained;
greedy `\d+` with no possible backtrack makes this exact). -/
def reFloatMatch (s : List Char) : Bool :=
  let d1 := s.takeWhile Char.isDigit
  !d1.isEmpty &&
    (match s.drop d1.length with
     | '.' :: c :: _ => c.isDigit
     | _ => false)

def decDigitVal (c : Char) : Option ℕ :=
  if '0' ≤ c ∧ c ≤ '9' then some (c.toNat - 48) else none

/-- Models Python `int(s)` (base 10) on an ASCII string: surrounding
whitespace, optional sign, then decimal digits with single underscores
between digits. -/
def pyIntDec (s : List Char) : Option ℤ :=
  let s1 := stripWS s
  let sp := signSplit s1
  match digitsToEnd decDigitVal sp.2 with
  | some ds => some (sp.1 * valOfDigits 10 ds)
  | none => none

/-- Greedy parse of `\d(_?\d)*` at the front of the string (underscores
dropped): digit values collected so far and the unconsumed rest.  Tail part:
an underscore is consumed only when a digit follows it. -/
def dgTakeTail : List Char → List ℕ × List Char
  | [] => ([], [])
  | '_' :: rest =>
    match rest with
    | c :: rest2 =>
      if c.isDigit then
        let p := dgTakeTail rest2
        ((c.toNat - 48) :: p.1, p.2)
      else ([], '_' :: c :: rest2)
    | [] => ([], ['_'])
  | c :: rest =>
    if c.isDigit then
      let p := dgTakeTail rest
      ((c.toNat - 48) :: p.1, p.2)
    else ([], c :: rest)

/-- Greedy parse of `\d(_?\d)*`: empty result when the first character is not
a digit. -/
def dgTake : List Char → List ℕ × List Char
  | [] => ([], [])
  | c :: rest =>
    if c.isDigit then
      let p := dgTakeTail rest
      ((c.toNat - 48) :: p.1, p.2)
    else ([], c :: rest)

/-- Exponent part of a Python float literal (after the `e`/`E`): optional
sign, then digits; the whole remaining input must be consumed. -/
def pyFloatExp (mant : ℚ) : List Char → Option ℚ :=
  fun r =>
    let sp := signSplit r
    let p := dgTake sp.2
    if p.1.isEmpty || !p.2.isEmpty then none
    else some (mant * (10 : ℚ) ^ (sp.1 * (valOfDigits 10 p.1 : ℤ)))

/-- Models Python `float(s)` on decimal literals: surrounding whitespace,
optional sign, `digits [. digits] [exp]` with at least one mantissa digit,
underscores single and between digits.  `inf`/`nan` spellings are not
modelled: `autoformat` only calls `float` on strings that start with a digit.
`none` models the `ValueError`. -/
def pyFloat (s : List Char) : Option ℚ :=
  let s1 := stripWS s
  let sp := signSplit s1
  let ip := dgTake sp.2
  let fp : List ℕ × List Char :=
    match ip.2 with
    | '.' :: r => dgTake r
    | _ => ([], ip.2)
  if ip.1.isEmpty && fp.1.isEmpty then none
  else
    let mant : ℚ :=
      (sp.1 : ℚ) * ((valOfDigits 10 ip.1 : ℚ) +
        (valOfDigits 10 fp.1 : ℚ) / (10 : ℚ) ^ fp.1.length)
    match fp.2 with
    | [] => some mant
    | 'e' :: r => pyFloatExp mant r
    | 'E' :: r => pyFloatExp mant r
    | _ => none

/-- `utils.autoformat(value)`: the source tests, in order, `str` matching
`^\d+$` (→ `int(value)`), `str` matching `\d+\.\d+` (→ `float(value)`, which
RAISES when the rest of the string is not a valid float literal), already
numeric types (→ unchanged), and finally `str(value)` (the identity on
strings). -/
def autoformat (v : PyVal) : Except String PyVal :=
  match v with
  | .str s =>
    if reFullDigits s then
      match pyIntDec s with
      | some n => .ok (.int n)
      | none => .error "ValueError: invalid literal for int"
    else if reFloatMatch s then
      match pyFloat s with
      | some q => .ok (.float q)
      | none => .error "ValueError: could not convert string to float"
    else .ok (.str s)
  | .int n => .ok (.int n)
  | .float q => .ok (.float q)

/-! ## Decoded records as Python dicts

A decoded record (the dict built by `digimeter.parse`) is an association list
with `String` keys; insertion order is kept, keys do not repeat. -/

abbrev Rec : Type := List (String × PyVal)

/-- Dict lookup `r[k]` as an `Option` (`none` models `KeyError`). -/
def pyGet (r : Rec) (k : String) : Option PyVal :=
  match r with
  | [] => none
  | (k', v) :: t => if k' = k then some v else pyGet t k

/-- Dict assignment `r[k] = v`: replaces the first binding of `k` in place,
appends when `k` is absent. -/
def pySet (r : Rec) (k : String) (v : PyVal) : Rec :=
  match r with
  | [] => [(k, v)]
  | (k', v') :: t => if k' = k then (k, v) :: t else (k', v') :: pySet t k v

/-- `del r[k]`: removes the first binding of `k`; `none` models `KeyError`. -/
def pyDel (r : Rec) (k : String) : Option Rec :=
  match r with
  | [] => none
  | (k', v') :: t => if k' = k then some t else (pyDel t k).map ((k', v') :: ·)

/-! ## CSV writer (`smartmeter/csv_writer.py`) -/

/-- The in-place mutation `CSVWriter.write` performs on a telegram before
batching it (lines 129-137): `del telegram["local_timestamp"]`, then both
meter timestamps are replaced by their ISO-8601 conversions.  Missing keys
raise `KeyError`, a non-string timestamp raises `TypeError` (subscripting an
`int`), and `convert_timestamp` errors propagate. -/
def csvPrep (telegram : Rec) : Except String Rec :=
  match pyDel telegram "local_timestamp" with
  | none => .error "KeyError: local_timestamp"
  | some t1 =>
    match pyGet t1 "timestamp" with
    | some (.str ts) =>
      (match convert_timestamp ts (some "iso8601".toList) with
       | .error e => .error e
       | .ok tsConv =>
         match pyGet (pySet t1 "timestamp" (.str tsConv)) "gas_timestamp" with
         | some (.str gs) =>
           match convert_timestamp gs (some "iso8601".toList) with
           | .error e => .error e
           | .ok gsConv =>
             .ok (pySet (pySet t1 "timestamp" (.str tsConv)) "gas_timestamp"
               (.str gsConv))
         | some _ => .error "TypeError: gas_timestamp is not a string"
         | none => .error "KeyError: gas_timestamp")
    | some _ => .error "TypeError: timestamp is not a string"
    | none => .error "KeyError: timestamp"

/-- State of a `CSVWriter`.  `fileOpen` models `self.filehandler`: `true` for
an open working file, `false` for `None` (initially, and after `close`).
`prefix`/`path`/`write_header` only shape file names and headers (I/O) and are
not modelled; `max_lines`/`max_age` carry their config values (defaults 100
and 300). -/
structure CSVWriter where
  write_every : ℕ
  max_lines : ℕ
  max_age : ℤ
  batch : List Rec
  lines_written : ℕ
  create_time : ℤ
  fileOpen : Bool
  deriving DecidableEq, Repr

/-- `CSVWriter.open`: a no-op when a file is open; otherwise creates a fresh
working file, resetting `lines_written` and `create_time` (file naming and
the header write are I/O and not modelled). -/
def csvOpen (now : ℤ) (st : CSVWriter) : CSVWriter :=
  if st.fileOpen then st
  else { st with fileOpen := true, lines_written := 0, create_time := now }

/-- The `while self.batch:` loop of `CSVWriter.write`: pop the LAST batch
entry (`self.batch.pop()`), write it as a row, bump `lines_written`, and —
after every row — close the file and BREAK out of the loop when the age or
row-count rotation limit is reached (`close()` is called with its default
`flush=False` there, so nothing more is written).  Returns the writer state
and the rows written, in the order written.  The fuel argument is the batch
length, which bounds the iteration count; `monotonic()` is sampled as the
single value `now` for the whole call. -/
def csvFlushN : ℕ → ℤ → CSVWriter → CSVWriter × List Rec
  | 0, _, st => (st, [])
  | k + 1, now, st =>
    match st.batch with
    | [] => (st, [])
    | r0 :: t0 =>
      let r := (r0 :: t0).getLast (List.cons_ne_nil r0 t0)
      let st' := { st with
        batch := (r0 :: t0).dropLast
        lines_written := st.lines_written + 1 }
      if st'.max_age + st'.create_time ≤ now ∨ st'.lines_written = st'.max_lines then
        ({ st' with fileOpen := false }, [r])
      else
        let p := csvFlushN k now st'
        (p.1, r :: p.2)

def csvFlushLoop (now : ℤ) (st : CSVWriter) : CSVWriter × List Rec :=
  csvFlushN st.batch.length now st

/-- First stage of `CSVWriter.write`: `if telegram:` (an empty dict is falsy
and skipped), mutate it via `csvPrep` and append it to the batch. -/
def csvWriteStage (telegram : Option Rec) (st : CSVWriter) : Except String CSVWriter :=
  match telegram with
  | some t =>
    if t.isEmpty then pure st
    else do
      let t' ← csvPrep t
      pure { st with batch := st.batch ++ [t'] }
  | none => pure st

/-- `CSVWriter.write(telegram, flush)`: append stage, the early return when
the batch is still below `write_every` and no flush is forced, else `open()`
followed by the flush loop.  Returns the new state and the rows written. -/
def csvWrite (now : ℤ) (st : CSVWriter) (telegram : Option Rec) (flush : Bool) :
    Except String (CSVWriter × List Rec) := do
  let st1 ← csvWriteStage telegram st
  if st1.batch.length < st1.write_every ∧ flush = false then
    pure (st1, [])
  else
    pure (csvFlushLoop now (csvOpen now st1))

/-- `CSVWriter.close(flush)`.  `self.filehandler.closed` on the `None` handle
raises `AttributeError`; after a forced flush whose loop already rotated the
file closed, `self.filename` dereferences `None` likewise.  Otherwise the
file is closed (the unlink/rename promotion is I/O and not modelled). -/
def csvClose (now : ℤ) (st : CSVWriter) (flush : Bool) :
    Except String (CSVWriter × List Rec) := do
  if st.fileOpen = false then
    Except.error "AttributeError: NoneType object has no attribute closed"
  else
    let p ← if flush = true ∧ st.batch ≠ [] then csvWrite now st none true
            else pure (st, [])
    if p.1.fileOpen = false then
      Except.error "AttributeError: NoneType object has no attribute name"
    else
      pure ({ p.1 with fileOpen := false }, p.2)

/-! ## Time-series writer (`smartmeter/influx.py`) -/

/-- State of `DbInflux` relevant to `write`: the pending batch (already
`craft_json`-transformed payloads), the configured `upload_interval` and the
`last_upload_time` clock (initially `0`).  The connection parameters are I/O
and not modelled; the payload type is a parameter (`craft_json` itself only
shapes payloads and performs no batching). -/
structure DbInflux (β : Type) where
  upload_interval : ℤ
  last_upload_time : ℤ
  batch : List β
  deriving DecidableEq, Repr

/-- `DbInflux.write(data)`, with `craft` standing for `self.craft_json` and
`now` for `monotonic()`.  When the interval has not yet elapsed — or the
batch is empty — the crafted record is appended and no network I/O happens
(`none`).  Otherwise the accumulated batch (NOT including `data`, which is
discarded) is written in one network call (`some batch`), the batch cleared
and the clock reset; the model takes the successful-write path of the
`async with` block. -/
def DbInflux.write {α β : Type} (craft : α → β) (now : ℤ) (s : DbInflux β)
    (data : α) : DbInflux β × Option (List β) :=
  if now - s.last_upload_time < s.upload_interval ∨ s.batch.length = 0 then
    ({ s with batch := s.batch ++ [craft data] }, none)
  else
    ({ s with batch := [], last_upload_time := now }, some s.batch)

/-! ## Dispatch loop (`main.dispatcher`) -/

/-- `status = Status()` on line 135 of `main.py`, before the dispatch loop:
it raises (see `statusInit`), so the dispatcher coroutine in fact dies before
reading the queue.  The loop-body model below describes what one iteration
does for a dequeued record. -/
def dispatcherStart : Except PyErr Unit := statusInit

/-- Observable outcome of one iteration of the dispatcher loop body for one
dequeued record: which of the configured sinks were invoked on the record,
whether the `except Exception` handler caught something, and whether the loop
continues to the next queue item (it always does — the handler swallows). -/
structure DispatchOutcome where
  influxInvoked : Bool
  csvInvoked : Bool
  lmInvoked : Bool
  caught : Bool
  continues : Bool
  deriving DecidableEq, Repr

/-- One iteration of the `while True:` body of `main.dispatcher` for a
dequeued record: inside a single `try`, the influx sink, the CSV sink and the
load manager are invoked in that order (each only if configured), then
`read_current_sensors()` constructs `Status()` — which raises (see
`statusInit`).  The first exception jumps to the `except Exception` handler:
later sinks are NOT invoked for that record, the exception is logged, and the
loop continues.  Sinks are passed as fallible procedures. -/
def dispatchIteration {ε : Type} (influxSink csvSink lmSink : Option (Rec → Except ε Unit))
    (data : Rec) : DispatchOutcome :=
  match (match influxSink with | some f => f data | none => .ok ()) with
  | .error _ => ⟨influxSink.isSome, false, false, true, true⟩
  | .ok _ =>
    match (match csvSink with | some f => f data | none => .ok ()) with
    | .error _ => ⟨influxSink.isSome, csvSink.isSome, false, true, true⟩
    | .ok _ =>
      match (match lmSink with | some f => f data | none => .ok ()) with
      | .error _ => ⟨influxSink.isSome, csvSink.isSome, lmSink.isSome, true, true⟩
      | .ok _ =>
        match statusInit with
        | .error _ => ⟨influxSink.isSome, csvSink.isSome, lmSink.isSome, true, true⟩
        | .ok _ => ⟨influxSink.isSome, csvSink.isSome, lmSink.isSome, false, true⟩

end Smartmeter

namespace Smartmeter

/-- C1: the load hysteresis transition function.  For every load and every
evaluation of `Load.process` on a reachable load state (`LoadInv`): the state
changes OFF→ON exactly when the state is OFF, `injected ≥ max_power`, and the
time in the current state exceeds `hold_timer` or no transition has ever
occurred (`state_start_time` unset); the state changes ON→OFF exactly when the
state is ON, `consumed` exceeds the fixed 100 W off-threshold, and the time in
the ON state exceeds `hold_timer`; in every other case the load is unchanged,
and every transition resets the state-start clock to the transition time.
The five concrete cases use `max_power = 2300`, `switch_on = 1725`,
`hold_timer = 5`, evaluated at `monotonic() = 100` (so a state time of `10`
means `state_start_time = 90`, and `0` means `state_start_time = 100`). -/
theorem claim_C1 :
    (∀ (l : Load) (now injected consumed : ℤ), LoadInv l →
      ((l.is_on = false ∧ (Load.process now injected consumed l).1.is_on = true) ↔
        (l.is_on = false ∧ l.max_power ≤ injected ∧
          (l.state_start_time = none ∨
           ∃ t, l.state_start_time = some t ∧ l.hold_timer < now - t))) ∧
      ((l.is_on = true ∧ (Load.process now injected consumed l).1.is_on = false) ↔
        (l.is_on = true ∧ 100 < consumed ∧
          ∃ t, l.state_start_time = some t ∧ l.hold_timer < now - t)) ∧
      ((Load.process now injected consumed l).1.is_on = l.is_on →
        (Load.process now injected consumed l).1 = l) ∧
      ((Load.process now injected consumed l).1.is_on ≠ l.is_on →
        (Load.process now injected consumed l).1.state_start_time = some now)) ∧
    (Load.process 100 2300 0 ⟨2300, 1725, 5, false, some 90⟩).1 =
      ⟨2300, 1725, 5, true, some 100⟩ ∧
    (Load.process 100 2300 0 ⟨2300, 1725, 5, false, some 100⟩).1 =
      ⟨2300, 1725, 5, false, some 100⟩ ∧
    (Load.process 100 0 150 ⟨2300, 1725, 5, true, some 90⟩).1 =
      ⟨2300, 1725, 5, false, some 100⟩ ∧
    (Load.process 100 0 150 ⟨2300, 1725, 5, true, some 100⟩).1 =
      ⟨2300, 1725, 5, true, some 100⟩ ∧
    (Load.process 100 0 0 ⟨2300, 1725, 5, true, some 90⟩).1 =
      ⟨2300, 1725, 5, true, some 90⟩ := by
  refine ⟨?_, by decide, by decide, by decide, by decide, by decide⟩
  rintro ⟨mp, so, ht, b, sst⟩ now injected consumed ⟨hpos, hon⟩
  cases b with
  | false =>
    by_cases hinj : mp ≤ injected
    · cases sst with
      | none =>
        simp [Load.process, Load.stateTime, stGuard, hinj, Load.switchOn,
          Load.statusAndReturn]
      | some t =>
        have ht0 : t ≠ 0 := by
          have := hpos t rfl
          omega
        by_cases hgt : ht < now - t
        · simp [Load.process, Load.stateTime, stGuard, hinj, ht0, hgt,
            Load.switchOn, Load.statusAndReturn]
        · simp [Load.process, Load.stateTime, stGuard, hinj, ht0, hgt,
            Load.statusAndReturn]
    · cases sst with
      | none =>
        simp [Load.process, Load.stateTime, stGuard, hinj, Load.statusAndReturn]
      | some t =>
        simp [Load.process, Load.stateTime, stGuard, hinj, Load.statusAndReturn]
  | true =>
    have hsst : sst ≠ none := hon rfl
    obtain ⟨t, rfl⟩ : ∃ t, sst = some t := by
      cases sst with
      | none => exact absurd rfl hsst
      | some t => exact ⟨t, rfl⟩
    have ht0 : t ≠ 0 := by
      have := hpos t rfl
      omega
    by_cases hcons : (100 : ℤ) < consumed
    · by_cases hgt : ht < now - t
      · simp [Load.process, Load.stateTime, stGuard, hcons, ht0, hgt,
          Load.switchOff, Load.statusAndReturn]
      · simp [Load.process, Load.stateTime, stGuard, hcons, ht0, hgt,
          Load.statusAndReturn]
    · simp [Load.process, Load.stateTime, stGuard, hcons, ht0,
        Load.statusAndReturn]

/-- Witness for C1: the reachability hypothesis `LoadInv` is discharged at the
concrete load `⟨2300, 1725, 5, ON, start 90⟩`, and the instantiated theorem
yields the ON→OFF transition at `now = 100`, `consumed = 150`. -/
theorem claim_C1_witness :
    LoadInv ⟨2300, 1725, 5, true, some 90⟩ ∧
    ((⟨2300, 1725, 5, true, some 90⟩ : Load).is_on = true ∧
      (Load.process 100 0 150 ⟨2300, 1725, 5, true, some 90⟩).1.is_on = false) :=
  have hinv : LoadInv ⟨2300, 1725, 5, true, some 90⟩ :=
    ⟨fun t h => by simp at h; omega, fun _ => by simp⟩
  ⟨hinv, ((claim_C1.1 ⟨2300, 1725, 5, true, some 90⟩ 100 0 150 hinv).2.1).mpr
    ⟨rfl, by decide, 90, rfl, by decide⟩⟩

/-- C10: invariant kept by every `Load` operation — whenever a load is ON its
`state_start_time` is set (the only way to reach ON is `Load.on`, which records
the transition time `monotonic() > 0`), hence in `Load.process` the ON→OFF
guard `state_time > hold_timer` compares two numbers and never raises the
`None`-comparison `TypeError`.  Stated as: the initial load satisfies the
invariant, and `Load.process` preserves it and never returns the
`noneCompare` error on invariant states. -/
theorem claim_C10 :
    (∀ mp so ht, LoadInv (initLoad mp so ht)) ∧
    (∀ (l : Load) (now injected consumed : ℤ), LoadInv l → 0 < now →
      LoadInv (Load.process now injected consumed l).1 ∧
      (Load.process now injected consumed l).2 ≠ Except.error PyErr.noneCompare) := by
  constructor
  · intro mp so ht
    refine ⟨fun t h => ?_, fun h => ?_⟩ <;> simp [initLoad] at h
  · rintro ⟨mp, so, ht, b, sst⟩ now injected consumed ⟨hpos, hon⟩ hnow
    have hInvOn : LoadInv ⟨mp, so, ht, true, some now⟩ := by
      refine ⟨fun t h => ?_, fun _ => by simp⟩
      simp at h
      omega
    have hInvOff : LoadInv ⟨mp, so, ht, false, some now⟩ := by
      refine ⟨fun t h => ?_, fun h => by simp at h⟩
      simp at h
      omega
    cases b with
    | false =>
      have hInv : LoadInv ⟨mp, so, ht, false, sst⟩ := ⟨hpos, hon⟩
      by_cases hinj : mp ≤ injected
      · cases sst with
        | none =>
          have hp : Load.process now injected consumed ⟨mp, so, ht, false, none⟩ =
              (⟨mp, so, ht, true, some now⟩, Except.error PyErr.statusInit) := by
            simp [Load.process, Load.stateTime, stGuard, hinj, Load.switchOn,
              Load.statusAndReturn, statusInit]
          rw [hp]
          exact ⟨hInvOn, by simp⟩
        | some t =>
          have ht0 : t ≠ 0 := by have := hpos t rfl; omega
          by_cases hgt : ht < now - t
          · have hp : Load.process now injected consumed ⟨mp, so, ht, false, some t⟩ =
                (⟨mp, so, ht, true, some now⟩, Except.error PyErr.statusInit) := by
              simp [Load.process, Load.stateTime, stGuard, hinj, ht0, hgt,
                Load.switchOn, Load.statusAndReturn, statusInit]
            rw [hp]
            exact ⟨hInvOn, by simp⟩
          · have hp : Load.process now injected consumed ⟨mp, so, ht, false, some t⟩ =
                (⟨mp, so, ht, false, some t⟩, Except.error PyErr.statusInit) := by
              simp [Load.process, Load.stateTime, stGuard, hinj, ht0, hgt,
                Load.statusAndReturn, statusInit]
            rw [hp]
            exact ⟨hInv, by simp⟩
      · have hp : Load.process now injected consumed ⟨mp, so, ht, false, sst⟩ =
            (⟨mp, so, ht, false, sst⟩, Except.error PyErr.statusInit) := by
          cases sst with
          | none =>
            simp [Load.process, Load.stateTime, stGuard, hinj,
              Load.statusAndReturn, statusInit]
          | some t =>
            simp [Load.process, Load.stateTime, stGuard, hinj,
              Load.statusAndReturn, statusInit]
        rw [hp]
        exact ⟨hInv, by simp⟩
    | true =>
      have hInv : LoadInv ⟨mp, so, ht, true, sst⟩ := ⟨hpos, hon⟩
      have hsst : sst ≠ none := hon rfl
      obtain ⟨t, rfl⟩ : ∃ t, sst = some t := by
        cases sst with
        | none => exact absurd rfl hsst
        | some t => exact ⟨t, rfl⟩
      have ht0 : t ≠ 0 := by have := hpos t rfl; omega
      by_cases hcons : (100 : ℤ) < consumed
      · by_cases hgt : ht < now - t
        · have hp : Load.process now injected consumed ⟨mp, so, ht, true, some t⟩ =
              (⟨mp, so, ht, false, some now⟩, Except.error PyErr.statusInit) := by
            simp [Load.process, Load.stateTime, stGuard, hcons, ht0, hgt,
              Load.switchOff, Load.statusAndReturn, statusInit]
          rw [hp]
          exact ⟨hInvOff, by simp⟩
        · have hp : Load.process now injected consumed ⟨mp, so, ht, true, some t⟩ =
              (⟨mp, so, ht, true, some t⟩, Except.error PyErr.statusInit) := by
            simp [Load.process, Load.stateTime, stGuard, hcons, ht0, hgt,
              Load.statusAndReturn, statusInit]
          rw [hp]
          exact ⟨hInv, by simp⟩
      · have hp : Load.process now injected consumed ⟨mp, so, ht, true, some t⟩ =
            (⟨mp, so, ht, true, some t⟩, Except.error PyErr.statusInit) := by
          simp [Load.process, Load.stateTime, stGuard, hcons, ht0,
            Load.statusAndReturn, statusInit]
        rw [hp]
        exact ⟨hInv, by simp⟩

/-- Witness for C10: both hypotheses discharged at the ON load with
`state_start_time = 90`, evaluated at `now = 100`. -/
theorem claim_C10_witness :
    LoadInv ⟨2300, 1725, 5, true, some 90⟩ ∧ (0 : ℤ) < 100 ∧
    (LoadInv (Load.process 100 0 150 ⟨2300, 1725, 5, true, some 90⟩).1 ∧
      (Load.process 100 0 150 ⟨2300, 1725, 5, true, some 90⟩).2 ≠
        Except.error PyErr.noneCompare) :=
  have hinv : LoadInv ⟨2300, 1725, 5, true, some 90⟩ :=
    ⟨fun t h => by simp at h; omega, fun _ => by simp⟩
  ⟨hinv, by decide,
    claim_C10.2 ⟨2300, 1725, 5, true, some 90⟩ 100 0 150 hinv (by decide)⟩

/-! ### Hex-rendering helper lemmas (for C2) -/

lemma unHexDigit_digitChar : ∀ k, k < 16 → unHexDigit (Nat.digitChar k) = k := by decide

lemma fromHexChars_append (l : List Char) (c : Char) :
    fromHexChars (l ++ [c]) = 16 * fromHexChars l + unHexDigit c := by
  simp [fromHexChars, List.foldl_append]

lemma fromHexChars_toHexCharsAux :
    ∀ fuel n, n ≤ fuel → fromHexChars (toHexCharsAux fuel n) = n := by
  intro fuel
  induction fuel with
  | zero =>
    intro n hn
    have : n = 0 := by omega
    subst this
    decide
  | succ fuel ih =>
    intro n hn
    rw [toHexCharsAux]
    by_cases h : n < 16
    · simp only [h, if_true]
      simpa [fromHexChars] using unHexDigit_digitChar n h
    · simp only [h, if_false]
      rw [fromHexChars_append, ih (n / 16) (by omega)]
      have h2 := unHexDigit_digitChar (n % 16) (Nat.mod_lt _ (by norm_num))
      omega

lemma fromHexChars_toHexChars (n : ℕ) : fromHexChars (toHexChars n) = n :=
  fromHexChars_toHexCharsAux n n le_rfl

lemma toHexChars_inj {a b : ℕ} (h : toHexChars a = toHexChars b) : a = b := by
  have := congrArg fromHexChars h
  simpa [fromHexChars_toHexChars] using this

/-- Python `hex` is injective, so `check_msg`'s hex-string comparison is
equality of the two CRC values. -/
lemma pyHex_inj {a b : ℤ} (h : pyHex a = pyHex b) : a = b := by
  unfold pyHex at h
  split_ifs at h with h1 h2 h2
  · simp only [List.cons.injEq] at h
    have := toHexChars_inj h.2.2.2
    omega
  · simp only [List.cons.injEq] at h
    exact absurd h.1 (by decide)
  · simp only [List.cons.injEq] at h
    exact absurd h.1 (by decide)
  · simp only [List.cons.injEq] at h
    have := toHexChars_inj h.2.2
    omega

/-- C2 (amended): for every raw frame that contains a `'!'` (first occurrence
at index `i`), `check_msg` returns `True` if and only if the CRC-16 (LHA
variant) computed over the frame prefix up to and including that `'!'` equals
the value parsed (as Python `int(·, 16)`) from ALL the bytes following the
`'!'`, whitespace-stripped — not just the four characters after the `'!'` as
the claim stated; parse failures (and every other validation error) yield
`False`, never an exception. -/
theorem claim_C2 (raw : List Char) (i : ℕ) (h : raw.findIdx? (· == '!') = some i) :
    check_msg raw = true ↔
      pyIntHex (stripWS (raw.drop (i + 1))) =
        some ((crc16Lha ((raw.take (i + 1)).map Char.toNat) : ℕ) : ℤ) := by
  simp only [check_msg, h]
  cases hp : pyIntHex (stripWS (raw.drop (i + 1))) with
  | none => simp [hp]
  | some p =>
    simp only [hp, beq_iff_eq, Option.some.injEq]
    constructor
    · intro he
      exact pyHex_inj he
    · intro he
      rw [he]

set_option maxRecDepth 40000 in
/-- Counterexample to C2 as stated: the frame `"!18c00"` carries five hex
characters after the `'!'`.  The CRC-16/LHA of `"!"` is `0x18c0`, so the value
parsed from the FOUR characters following `'!'` equals the computed CRC and
the claim deems the frame valid — but `check_msg` parses ALL five characters
(`0x18c00`) and returns `False`. -/
theorem claim_C2_counterexample :
    check_msg ("!18c00".toList) = false ∧ check_msg_claim ("!18c00".toList) = true := by
  constructor <;> rfl

set_option maxRecDepth 40000 in
/-- Witness for C2: the frame `"!18c0"` (whose `'!'` is at index 0) satisfies
the amended equivalence, giving a valid frame. -/
theorem claim_C2_witness :
    ("!18c0".toList.findIdx? (· == '!') = some 0) ∧ check_msg "!18c0".toList = true :=
  ⟨by rfl, (claim_C2 "!18c0".toList 0 (by rfl)).mpr (by rfl)⟩

/-! ### Framing lemmas (for C3) -/

lemma mem_emit {tg f : List Char} (hf : f ∈ if check_msg tg then [tg] else []) :
    check_msg f = true := by
  split_ifs at hf with h
  · simp only [List.mem_singleton] at hf
    subst hf
    exact h
  · simp at hf

lemma readSerialStep_valid (st : FramerState) (line f : List Char)
    (hf : f ∈ (readSerialStep st line).2) : check_msg f = true := by
  unfold readSerialStep at hf
  by_cases hend : endOfTelegram line = true
  · simp only [hend, if_true] at hf
    exact mem_emit hf
  · simp only [hend, if_false] at hf
    simp at hf

lemma readSerialRun_valid :
    ∀ (lines : List (List Char)) (st : FramerState) (f : List Char),
      f ∈ readSerialRun st lines → check_msg f = true := by
  intro lines
  induction lines with
  | nil =>
    intro st f hf
    simp [readSerialRun] at hf
  | cons line rest ih =>
    intro st f hf
    simp only [readSerialRun, List.mem_append] at hf
    rcases hf with hf | hf
    · exact readSerialStep_valid st line f hf
    · exact ih _ f hf

/-- C3 (amended): on the serial-reading path (`read_serial`), every frame
passed to the Field Extractor `parse` is one for which `check_msg` returned
`True` — an invalid-CRC frame is dropped.  (The file-replay path
`fake_serial` does NOT validate; see the counterexample.) -/
theorem claim_C3 :
    ∀ (lines : List (List Char)) (f : List Char),
      f ∈ readSerialParsed lines → check_msg f = true := by
  intro lines f hf
  exact readSerialRun_valid lines ⟨false, []⟩ f hf

set_option maxRecDepth 40000 in
/-- Counterexample to C3 as stated: fed the two replay lines
`"/FLU5\\\n"` and `"!0000\n"`, `fake_serial` passes the completed frame to
`parse` even though its CRC is invalid (the CRC-16/LHA of the prefix is
`0xFA6E`, not `0x0000`), so an invalid-CRC frame does reach the Field
Extractor on the file-based offline-replay path. -/
theorem claim_C3_counterexample :
    fakeSerialParsed ["/FLU5\\\n".toList, "!0000\n".toList] =
      ["/FLU5\\\n!0000\n".toList] ∧
    check_msg ("/FLU5\\\n!0000\n".toList) = false := by
  constructor <;> rfl

set_option maxRecDepth 80000 in
/-- Witness for C3: a two-line telegram with the correct CRC trailer
(`0xFA6E`) is passed to `parse` by `read_serial`, and the theorem applies to
it. -/
theorem claim_C3_witness :
    ("/FLU5\\\n!FA6E\n".toList ∈
      readSerialParsed ["/FLU5\\\n".toList, "!FA6E\n".toList]) ∧
    check_msg ("/FLU5\\\n!FA6E\n".toList) = true :=
  have hm : "/FLU5\\\n!FA6E\n".toList ∈
      readSerialParsed ["/FLU5\\\n".toList, "!FA6E\n".toList] := by
    rw [show readSerialParsed ["/FLU5\\\n".toList, "!FA6E\n".toList] =
      ["/FLU5\\\n!FA6E\n".toList] from rfl]
    exact List.mem_singleton.mpr rfl
  ⟨hm, claim_C3 _ _ hm⟩

/-- C7: the timestamp codec.  `"211024195235S"` maps to ISO-8601
`"2021-10-24T19:52:35+02:00"`, the same digits with trailing `'W'` get the
`+01:00` offset (zone abbreviations CEST/CET when ISO-8601 is not requested),
the empty string always raises, and in general the thirteen input characters
are rearranged positionally with the offset chosen by the final letter. -/
theorem claim_C7 :
    (convert_timestamp "211024195235S".toList (some "iso8601".toList) =
      .ok "2021-10-24T19:52:35+02:00".toList) ∧
    (convert_timestamp "211024195235W".toList (some "iso8601".toList) =
      .ok "2021-10-24T19:52:35+01:00".toList) ∧
    (convert_timestamp "211024195235S".toList none =
      .ok "2021-10-24 19:52:35 CEST".toList) ∧
    (convert_timestamp "211024195235W".toList none =
      .ok "2021-10-24 19:52:35 CET".toList) ∧
    (∀ format, convert_timestamp [] format =
      .error "ValueError: Timestamp cannot be empty.") ∧
    (∀ c1 c2 c3 c4 c5 c6 c7 c8 c9 c10 c11 c12 : Char,
      convert_timestamp [c1, c2, c3, c4, c5, c6, c7, c8, c9, c10, c11, c12, 'S']
          (some "iso8601".toList) =
        .ok ('2' :: '0' :: c1 :: c2 :: '-' :: c3 :: c4 :: '-' :: c5 :: c6 :: 'T' ::
          c7 :: c8 :: ':' :: c9 :: c10 :: ':' :: c11 :: c12 :: "+02:00".toList) ∧
      convert_timestamp [c1, c2, c3, c4, c5, c6, c7, c8, c9, c10, c11, c12, 'W']
          (some "iso8601".toList) =
        .ok ('2' :: '0' :: c1 :: c2 :: '-' :: c3 :: c4 :: '-' :: c5 :: c6 :: 'T' ::
          c7 :: c8 :: ':' :: c9 :: c10 :: ':' :: c11 :: c12 :: "+01:00".toList)) :=
  ⟨rfl, rfl, rfl, rfl, fun _ => rfl,
   fun _ _ _ _ _ _ _ _ _ _ _ _ => ⟨rfl, rfl⟩⟩

/-! ### Digit-string lemmas (for C8) -/

lemma char_digit_le (c : Char) (h : c.isDigit = true) : '0' ≤ c ∧ c ≤ '9' := by
  simp only [Char.isDigit, Bool.and_eq_true, decide_eq_true_eq] at h
  exact ⟨h.1, h.2⟩

lemma decDigitVal_of_digit (c : Char) (h : c.isDigit = true) :
    decDigitVal c = some (c.toNat - 48) := by
  rw [decDigitVal, if_pos (char_digit_le c h)]

lemma digit_ne (c : Char) (h : c.isDigit = true) (d : Char) (hd : d.isDigit = false) :
    c ≠ d := fun e => by rw [e, hd] at h; cases h

lemma signSplit_default (c : Char) (t : List Char) (h1 : c ≠ '+') (h2 : c ≠ '-') :
    signSplit (c :: t) = (1, c :: t) := by
  unfold signSplit
  split
  next heq => rw [List.cons.injEq] at heq; exact absurd heq.1 h1
  next heq => rw [List.cons.injEq] at heq; exact absurd heq.1 h2
  next => rfl

lemma isPyWS_false_of_digit (c : Char) (h : c.isDigit = true) : isPyWS c = false := by
  cases hw : isPyWS c
  · rfl
  · simp only [isPyWS, Bool.or_eq_true, decide_eq_true_eq] at hw
    rcases hw with ((((rfl | rfl) | rfl) | rfl) | rfl) | rfl <;> simp at h

lemma dropWhile_ws_of_digits (l : List Char) (h : ∀ c ∈ l, c.isDigit = true) :
    l.dropWhile isPyWS = l := by
  cases l with
  | nil => rfl
  | cons a t =>
    rw [List.dropWhile_cons_of_neg]
    simp [isPyWS_false_of_digit a (h a (by simp))]

lemma stripWS_of_digits (l : List Char) (h : ∀ c ∈ l, c.isDigit = true) :
    stripWS l = l := by
  unfold stripWS
  rw [dropWhile_ws_of_digits l h,
    dropWhile_ws_of_digits _ (fun c hc => h c (List.mem_reverse.mp hc)),
    List.reverse_reverse]

lemma stripWS_digits_newline (c : Char) (t : List Char)
    (h : ∀ x ∈ c :: t, x.isDigit = true) :
    stripWS ((c :: t) ++ ['\n']) = c :: t := by
  unfold stripWS
  rw [List.cons_append, List.dropWhile_cons_of_neg
    (by simp [isPyWS_false_of_digit c (h c (by simp))])]
  rw [← List.cons_append, List.reverse_append]
  show (('\n' :: (c :: t).reverse).dropWhile isPyWS).reverse = c :: t
  rw [List.dropWhile_cons_of_pos (by decide),
    dropWhile_ws_of_digits _ (fun x hx => h x (List.mem_reverse.mp hx)),
    List.reverse_reverse]

lemma digitsTail_of_digits :
    ∀ l : List Char, (∀ c ∈ l, c.isDigit = true) →
      ∃ ds, digitsTail decDigitVal l = some ds := by
  intro l
  induction l with
  | nil => exact fun _ => ⟨[], rfl⟩
  | cons c t ih =>
    intro h
    have hc := h c (by simp)
    obtain ⟨ds, hds⟩ := ih (fun x hx => h x (by simp [hx]))
    refine ⟨(c.toNat - 48) :: ds, ?_⟩
    rw [digitsTail.eq_def]
    dsimp only
    rw [if_neg (digit_ne c hc '_' (by decide)), decDigitVal_of_digit c hc, hds]
    rfl

lemma digitsToEnd_of_digits (c : Char) (t : List Char)
    (h : ∀ x ∈ c :: t, x.isDigit = true) :
    ∃ ds, digitsToEnd decDigitVal (c :: t) = some ((c.toNat - 48) :: ds) := by
  have hc := h c (by simp)
  obtain ⟨ds, hds⟩ := digitsTail_of_digits t (fun x hx => h x (by simp [hx]))
  refine ⟨ds, ?_⟩
  rw [digitsToEnd.eq_def]
  dsimp only
  rw [decDigitVal_of_digit c hc, hds]
  rfl

lemma pyIntDec_strip (s : List Char) (c : Char) (t : List Char)
    (hstrip : stripWS s = c :: t) (hdig : ∀ x ∈ c :: t, x.isDigit = true) :
    ∃ n, pyIntDec s = some n := by
  have hc := hdig c (by simp)
  obtain ⟨ds, hds⟩ := digitsToEnd_of_digits c t hdig
  refine ⟨valOfDigits 10 ((c.toNat - 48) :: ds), ?_⟩
  simp only [pyIntDec, hstrip,
    signSplit_default c t (digit_ne c hc '+' (by decide)) (digit_ne c hc '-' (by decide)),
    hds]
  simp

lemma reFullDigits_elim (s : List Char) (h : reFullDigits s = true) :
    ∃ c t, (s = c :: t ∨ s = (c :: t) ++ ['\n']) ∧
      (∀ x ∈ c :: t, x.isDigit = true) := by
  rw [reFullDigits, Bool.or_eq_true] at h
  rcases h with h1 | h2
  · rw [Bool.and_eq_true] at h1
    obtain ⟨hne, hall⟩ := h1
    cases s with
    | nil => simp at hne
    | cons c t =>
      refine ⟨c, t, Or.inl rfl, ?_⟩
      simpa [List.all_eq_true] using hall
  · have hne : s ≠ [] := by
      rintro rfl
      simp at h2
    rw [List.getLast?_eq_getLast s hne] at h2
    dsimp only at h2
    rw [Bool.and_eq_true, decide_eq_true_eq, Bool.and_eq_true] at h2
    obtain ⟨hlast, hdne, hall⟩ := h2
    have hshape : s.dropLast ++ ['\n'] = s := by
      rw [← hlast]
      exact List.dropLast_append_getLast hne
    cases hd : s.dropLast with
    | nil => rw [hd] at hdne; simp at hdne
    | cons c t =>
      refine ⟨c, t, Or.inr ?_, ?_⟩
      · rw [← hshape, hd]
      · rw [hd] at hall
        simpa [List.all_eq_true] using hall

/-- C8 (amended): `autoformat` returns an integer for every string matching
`^\d+$`, passes already-typed `int`/`float` values through unchanged, and
returns the text itself for every string matching neither numeric pattern.
For a string that matches the decimal pattern `\d+\.\d+` at its start,
`autoformat` returns the parsed float when the whole string is a valid Python
float literal, and RAISES `ValueError` otherwise — so, contrary to the claim,
it does not return a value for every string input (see the counterexample
`"1.2.3"`). -/
theorem claim_C8 :
    (∀ s : List Char, reFullDigits s = true →
      ∃ n, autoformat (.str s) = .ok (.int n)) ∧
    (∀ s : List Char, reFullDigits s = false → reFloatMatch s = true →
      (∀ q, pyFloat s = some q → autoformat (.str s) = .ok (.float q)) ∧
      (pyFloat s = none →
        autoformat (.str s) = .error "ValueError: could not convert string to float")) ∧
    (∀ n : ℤ, autoformat (.int n) = .ok (.int n)) ∧
    (∀ q : ℚ, autoformat (.float q) = .ok (.float q)) ∧
    (∀ s : List Char, reFullDigits s = false → reFloatMatch s = false →
      autoformat (.str s) = .ok (.str s)) := by
  refine ⟨?_, ?_, fun _ => rfl, fun _ => rfl, ?_⟩
  · intro s h
    obtain ⟨c, t, hshape, hdig⟩ := reFullDigits_elim s h
    have hint : ∃ n, pyIntDec s = some n := by
      rcases hshape with rfl | rfl
      · exact pyIntDec_strip _ c t (stripWS_of_digits _ hdig) hdig
      · exact pyIntDec_strip _ c t (stripWS_digits_newline c t hdig) hdig
    obtain ⟨n, hn⟩ := hint
    exact ⟨n, by simp [autoformat, h, hn]⟩
  · intro s h1 h2
    constructor
    · intro q hq
      simp [autoformat, h1, h2, hq]
    · intro hq
      simp [autoformat, h1, h2, hq]
  · intro s h1 h2
    simp [autoformat, h1, h2]

/-- Counterexample to C8 as stated: `"1.2.3"` is a string input on which
`autoformat` raises (it matches `\d+\.\d+` at the start, so `float("1.2.3")`
is attempted, and that raises `ValueError`) — `autoformat` does not return a
value for every string input. -/
theorem claim_C8_counterexample :
    autoformat (.str "1.2.3".toList) =
      .error "ValueError: could not convert string to float" := rfl

/-- Witness for C8: the hypotheses are discharged at `"123"` (integer
coercion), `"002.345"` (the spec's float example, value `469/200`) and
`"aaa"` (preserved text). -/
theorem claim_C8_witness :
    (reFullDigits "123".toList = true ∧
      ∃ n, autoformat (.str "123".toList) = .ok (.int n)) ∧
    (reFullDigits "002.345".toList = false ∧ reFloatMatch "002.345".toList = true ∧
      autoformat (.str "002.345".toList) = .ok (.float (469 / 200))) ∧
    (reFullDigits "aaa".toList = false ∧ reFloatMatch "aaa".toList = false ∧
      autoformat (.str "aaa".toList) = .ok (.str "aaa".toList)) :=
  ⟨⟨rfl, claim_C8.1 "123".toList rfl⟩,
   ⟨rfl, rfl, (claim_C8.2.1 "002.345".toList rfl rfl).1 (469 / 200) (by
      simp [pyFloat, stripWS, signSplit, dgTake, dgTakeTail, valOfDigits, isPyWS]
      norm_num)⟩,
   ⟨rfl, rfl, claim_C8.2.2.2.2 "aaa".toList rfl rfl⟩⟩

/-- C4: the time-series writer batching.  The code_bug trace, with
`upload_interval = 10`, `last_upload_time = 0` and payloads standing for
crafted records (`craft = id`): the writes at `monotonic() = 2` and `5` only
buffer; the write at `monotonic() = 12` uploads the accumulated batch
`[1, 2]` in one network call and resets the batch and clock — but the record
`3` passed to that triggering call is neither uploaded nor batched: it is
silently discarded, contradicting the claim (and the method's purpose of
writing its `data` argument). -/
theorem claim_C4 :
    DbInflux.write (fun n : ℕ => n) 2 ⟨10, 0, []⟩ 1 = (⟨10, 0, [1]⟩, none) ∧
    DbInflux.write (fun n : ℕ => n) 5 ⟨10, 0, [1]⟩ 2 = (⟨10, 0, [1, 2]⟩, none) ∧
    DbInflux.write (fun n : ℕ => n) 12 ⟨10, 0, [1, 2]⟩ 3 = (⟨10, 12, []⟩, some [1, 2]) ∧
    (3 : ℕ) ∉ [1, 2] :=
  ⟨rfl, rfl, rfl, by decide⟩

/-- C5 (amended): for a record processed by the dispatcher loop body, any
exception from a sink is caught and the loop continues with the next queue
item — but the sinks after the failing one are skipped for that record (a
single `try` wraps the whole body).  Also, every iteration ends with a caught
exception even when all sinks succeed, because the trailing
`read_current_sensors()` constructs the broken `Status()`. -/
theorem claim_C5 {ε : Type}
    (influxSink csvSink lmSink : Option (Rec → Except ε Unit)) (data : Rec) :
    (dispatchIteration influxSink csvSink lmSink data).continues = true ∧
    (dispatchIteration influxSink csvSink lmSink data).caught = true ∧
    (∀ f e, influxSink = some f → f data = .error e →
      (dispatchIteration influxSink csvSink lmSink data).csvInvoked = false ∧
      (dispatchIteration influxSink csvSink lmSink data).lmInvoked = false) ∧
    (∀ g e, csvSink = some g → g data = .error e →
      (match influxSink with | some f => f data | none => .ok ()) = .ok () →
      (dispatchIteration influxSink csvSink lmSink data).lmInvoked = false) := by
  refine ⟨?_, ?_, ?_, ?_⟩
  · unfold dispatchIteration
    repeat' split
    all_goals rfl
  · unfold dispatchIteration
    repeat' split
    all_goals first | rfl | (next he => exact absurd he (by simp [statusInit]))
  · intro f e hf herr
    subst hf
    unfold dispatchIteration
    have h1 : (match some f with
        | some f' => f' data
        | none => (.ok () : Except ε Unit)) = f data := rfl
    rw [h1, herr]
    exact ⟨rfl, rfl⟩
  · intro g e hg herr hok
    subst hg
    unfold dispatchIteration
    rw [hok]
    have h2 : (match some g with
        | some f' => f' data
        | none => (.ok () : Except ε Unit)) = g data := rfl
    rw [h2, herr]

/-- Counterexample to C5 as stated: with all three sinks configured and the
influx sink raising, the CSV sink and the load controller are NOT invoked on
that record — a failure in one sink does prevent the other configured sinks
from processing it (the loop itself continues, and the exception is
caught). -/
theorem claim_C5_counterexample :
    dispatchIteration (ε := Unit) (some fun _ => .error ()) (some fun _ => .ok ())
      (some fun _ => .ok ()) [] =
    { influxInvoked := true, csvInvoked := false, lmInvoked := false,
      caught := true, continues := true } := rfl

/-- Witness for C5: the implications are discharged at a concrete failing
influx sink. -/
theorem claim_C5_witness :
    (dispatchIteration (ε := Unit) (some fun _ => .error ()) (some fun _ => .ok ())
      (some fun _ => .ok ()) []).continues = true ∧
    (dispatchIteration (ε := Unit) (some fun _ => .error ()) (some fun _ => .ok ())
      (some fun _ => .ok ()) []).csvInvoked = false ∧
    (dispatchIteration (ε := Unit) (some fun _ => .error ()) (some fun _ => .ok ())
      (some fun _ => .ok ()) []).lmInvoked = false :=
  ⟨(claim_C5 (some fun _ => .error ()) (some fun _ => .ok ())
      (some fun _ => .ok ()) []).1,
   ((claim_C5 (some fun _ => .error ()) (some fun _ => .ok ())
      (some fun _ => .ok ()) []).2.2.1 _ () rfl rfl).1,
   ((claim_C5 (some fun _ => .error ()) (some fun _ => .ok ())
      (some fun _ => .ok ()) []).2.2.1 _ () rfl rfl).2⟩

/-! ### CSV flush-loop lemmas (for C6) -/

lemma reverse_eq_getLast_cons (r0 : Rec) (t0 : List Rec) :
    (r0 :: t0).reverse =
      (r0 :: t0).getLast (List.cons_ne_nil r0 t0) :: (r0 :: t0).dropLast.reverse := by
  conv_lhs => rw [← List.dropLast_append_getLast (List.cons_ne_nil r0 t0)]
  rw [List.reverse_append]
  rfl

/-- When neither rotation limit can trigger, the flush loop drains the whole
batch: it pops every record from the tail and writes it. -/
lemma csvFlushN_drains :
    ∀ (k : ℕ) (st : CSVWriter) (now : ℤ),
      st.batch.length ≤ k →
      st.fileOpen = true →
      now < st.create_time + st.max_age →
      st.lines_written + st.batch.length < st.max_lines →
      csvFlushN k now st =
        ({ st with batch := [], lines_written := st.lines_written + st.batch.length },
         st.batch.reverse) := by
  intro k
  induction k with
  | zero =>
    rintro ⟨we, ml, ma, b, lw, ct, fo⟩ now hlen hopen hage hlines
    obtain rfl : b = [] := by
      cases hbb : b
      · rfl
      · rw [hbb] at hlen; simp at hlen
    subst hopen
    simp [csvFlushN]
  | succ k ih =>
    rintro ⟨we, ml, ma, b, lw, ct, fo⟩ now hlen hopen hage hlines
    subst hopen
    dsimp only at hlen hage hlines
    cases hbb : b with
    | nil =>
      subst hbb
      simp [csvFlushN]
    | cons r0 t0 =>
      subst hbb
      simp only [List.length_cons] at hlen hlines
      simp only [csvFlushN]
      rw [if_neg (by omega)]
      have hlen' : ((r0 :: t0).dropLast).length ≤ k := by
        simp only [List.length_dropLast, List.length_cons]
        omega
      have hlines' : (lw + 1) + ((r0 :: t0).dropLast).length < ml := by
        simp only [List.length_dropLast, List.length_cons]
        omega
      rw [ih _ now hlen' rfl (by exact hage) (by exact hlines')]
      simp only [List.length_dropLast, List.length_cons]
      rw [reverse_eq_getLast_cons r0 t0]
      have h2 : lw + 1 + (t0.length + 1 - 1) = lw + (t0.length + 1) := by omega
      rw [h2]

/-- C6 (amended): a `CSVWriter.write` call that triggers a flush (the batch,
after the optional append, has reached `write_every`, or `flush` is forced)
drains the whole batch — every record is written (popped from the tail, so in
reverse batch order) and the in-memory batch is empty on return — PROVIDED no
file rotation triggers during the flush (the file stays younger than
`max_age` and the row count stays below `max_lines`).  When a rotation limit
is reached mid-flush, the code closes the file and `break`s out of the loop
with the remaining records still batched (see the counterexample). -/
theorem claim_C6 (now : ℤ) (st : CSVWriter) (telegram : Option Rec) (flush : Bool)
    (st2 : CSVWriter)
    (hstage : csvWriteStage telegram st = .ok st2)
    (htrig : st2.write_every ≤ st2.batch.length ∨ flush = true)
    (hage : now < (csvOpen now st2).create_time + (csvOpen now st2).max_age)
    (hlines : (csvOpen now st2).lines_written + st2.batch.length < st2.max_lines) :
    csvWrite now st telegram flush =
      .ok ({ csvOpen now st2 with
             batch := []
             lines_written := (csvOpen now st2).lines_written + st2.batch.length },
           st2.batch.reverse) := by
  have hopen : (csvOpen now st2).fileOpen = true := by
    unfold csvOpen
    split
    next h => exact h
    next => rfl
  have hbatch : (csvOpen now st2).batch = st2.batch := by
    unfold csvOpen
    split
    next => rfl
    next => rfl
  have hml : (csvOpen now st2).max_lines = st2.max_lines := by
    unfold csvOpen
    split
    next => rfl
    next => rfl
  rw [csvWrite]
  rw [hstage]
  show (if st2.batch.length < st2.write_every ∧ flush = false then
          pure (st2, ([] : List Rec))
        else pure (csvFlushLoop now (csvOpen now st2))) = _
  rw [if_neg (by
    rintro ⟨h1, h2⟩
    rcases htrig with h3 | h3
    · omega
    · rw [h3] at h2; cases h2)]
  rw [csvFlushLoop,
    csvFlushN_drains _ _ now (by rw [hbatch]) hopen hage (by rw [hbatch, hml]; exact hlines)]
  rw [hbatch]
  rfl

/-- Counterexample to C6 as stated: a writer with `max_lines = 1`,
`write_every = 2`, an open fresh file and a two-record batch.  A forced flush
writes ONE record (the tail `r2`), hits the row-count rotation limit, closes
the file and breaks — `r1` is still in the in-memory batch when `write`
returns, so the flush did not drain the whole batch. -/
theorem claim_C6_counterexample :
    csvWrite 1 ⟨2, 1, 300, [[("k", PyVal.int 1)], [("k", PyVal.int 2)]], 0, 0, true⟩
        none true =
      .ok (⟨2, 1, 300, [[("k", PyVal.int 1)]], 1, 0, false⟩,
        [[("k", PyVal.int 2)]]) ∧
    ([[("k", PyVal.int 1)]] : List Rec) ≠ [] := by
  refine ⟨rfl, ?_⟩
  decide

/-- Witness for C6: a fresh writer (`write_every = 1`, `max_lines = 100`,
`max_age = 300`, closed file) receiving one telegram flushes it: the batch
ends empty and the prepared record is written. -/
theorem claim_C6_witness :
    csvWriteStage (some [("local_timestamp", PyVal.str "2021-10-24T19:52:40".toList),
        ("timestamp", PyVal.str "211024195235S".toList),
        ("gas_timestamp", PyVal.str "211024195235S".toList)])
        ⟨1, 100, 300, [], 0, 0, false⟩ =
      .ok ⟨1, 100, 300,
        [[("timestamp", PyVal.str "2021-10-24T19:52:35+02:00".toList),
          ("gas_timestamp", PyVal.str "2021-10-24T19:52:35+02:00".toList)]],
        0, 0, false⟩ ∧
    csvWrite 1 ⟨1, 100, 300, [], 0, 0, false⟩
        (some [("local_timestamp", PyVal.str "2021-10-24T19:52:40".toList),
          ("timestamp", PyVal.str "211024195235S".toList),
          ("gas_timestamp", PyVal.str "211024195235S".toList)]) false =
      .ok (⟨1, 100, 300, [], 1, 1, true⟩,
        [[("timestamp", PyVal.str "2021-10-24T19:52:35+02:00".toList),
          ("gas_timestamp", PyVal.str "2021-10-24T19:52:35+02:00".toList)]]) :=
  ⟨rfl,
   claim_C6 1 ⟨1, 100, 300, [], 0, 0, false⟩ _ false
     ⟨1, 100, 300,
       [[("timestamp", PyVal.str "2021-10-24T19:52:35+02:00".toList),
         ("gas_timestamp", PyVal.str "2021-10-24T19:52:35+02:00".toList)]],
       0, 0, false⟩
     rfl (Or.inl (by decide)) (by decide) (by decide)⟩

/-! ### Dict-operation lemmas (for C9) -/

lemma pyGet_pySet_same (r : Rec) (k : String) (v : PyVal) :
    pyGet (pySet r k v) k = some v := by
  induction r with
  | nil => simp [pySet, pyGet]
  | cons p t ih =>
    obtain ⟨a, b⟩ := p
    by_cases h : a = k
    · simp [pySet, pyGet, h]
    · simp [pySet, pyGet, h, ih]

lemma pyGet_pySet_other (r : Rec) (k k2 : String) (v : PyVal) (h : k2 ≠ k) :
    pyGet (pySet r k v) k2 = pyGet r k2 := by
  have h' : k ≠ k2 := Ne.symm h
  induction r with
  | nil => simp [pySet, pyGet, h']
  | cons p t ih =>
    obtain ⟨a, b⟩ := p
    by_cases ha : a = k
    · subst ha
      simp [pySet, pyGet, h']
    · simp [pySet, pyGet, ha, ih]

lemma pyDel_some (r : Rec) (k : String) (h : pyGet r k ≠ none) :
    ∃ r', pyDel r k = some r' := by
  induction r with
  | nil => simp [pyGet] at h
  | cons p t ih =>
    obtain ⟨a, b⟩ := p
    by_cases ha : a = k
    · exact ⟨t, by simp [pyDel, ha]⟩
    · rw [pyGet] at h
      simp only [ha, if_false] at h
      obtain ⟨t', ht'⟩ := ih h
      exact ⟨(a, b) :: t', by simp [pyDel, ha, ht']⟩

lemma pyGet_pyDel_other (r r' : Rec) (k k2 : String)
    (hd : pyDel r k = some r') (h : k2 ≠ k) :
    pyGet r' k2 = pyGet r k2 := by
  induction r generalizing r' with
  | nil => simp [pyDel] at hd
  | cons p t ih =>
    obtain ⟨a, b⟩ := p
    by_cases ha : a = k
    · rw [pyDel] at hd
      simp only [ha, if_true, Option.some.injEq] at hd
      subst hd
      subst ha
      rw [pyGet]
      simp [Ne.symm h]
    · rw [pyDel] at hd
      simp only [ha, if_false] at hd
      cases htd : pyDel t k with
      | none => rw [htd] at hd; simp at hd
      | some t' =>
        rw [htd] at hd
        simp only [Option.map_some', Option.some.injEq] at hd
        subst hd
        rw [pyGet, pyGet]
        by_cases hak : a = k2
        · simp [hak]
        · simp [hak, ih t' htd]

lemma pyGet_none_of_not_mem (r : Rec) (k : String)
    (h : k ∉ r.map Prod.fst) : pyGet r k = none := by
  induction r with
  | nil => rfl
  | cons p t ih =>
    obtain ⟨a, b⟩ := p
    simp only [List.map_cons, List.mem_cons] at h
    push_neg at h
    rw [pyGet]
    simp only [Ne.symm h.1, if_false]
    exact ih h.2

lemma pyGet_pyDel_self (r r' : Rec) (k : String)
    (hnd : (r.map Prod.fst).Nodup) (hd : pyDel r k = some r') :
    pyGet r' k = none := by
  induction r generalizing r' with
  | nil => simp [pyDel] at hd
  | cons p t ih =>
    obtain ⟨a, b⟩ := p
    simp only [List.map_cons, List.nodup_cons] at hnd
    by_cases ha : a = k
    · rw [pyDel] at hd
      simp only [ha, if_true, Option.some.injEq] at hd
      subst hd
      subst ha
      exact pyGet_none_of_not_mem t a hnd.1 ▸ rfl
    · rw [pyDel] at hd
      simp only [ha, if_false] at hd
      cases htd : pyDel t k with
      | none => rw [htd] at hd; simp at hd
      | some t' =>
        rw [htd] at hd
        simp only [Option.map_some', Option.some.injEq] at hd
        subst hd
        rw [pyGet]
        simp only [ha, if_false]
        exact ih t' hnd.2 htd

/-- C9 (amended): the CSV sink MUTATES the record it consumes, contrary to
the claim: `CSVWriter.write` deletes the local-capture timestamp
(`local_timestamp`) from the shared mapping and overwrites the two meter
timestamp fields with their ISO-8601 conversions; every other key keeps its
value.  (The influx payload shaping and the load controller only read the
record.)  Since the dispatcher hands the same mapping to each sink in turn,
the sinks after the CSV writer observe the mutated record. -/
theorem claim_C9 (rec : Rec) (ts gs tsOut gsOut : List Char)
    (hnd : (rec.map Prod.fst).Nodup)
    (hl : pyGet rec "local_timestamp" ≠ none)
    (ht : pyGet rec "timestamp" = some (.str ts))
    (hg : pyGet rec "gas_timestamp" = some (.str gs))
    (hts : convert_timestamp ts (some "iso8601".toList) = .ok tsOut)
    (hgs : convert_timestamp gs (some "iso8601".toList) = .ok gsOut) :
    ∃ rec', csvPrep rec = .ok rec' ∧
      pyGet rec' "local_timestamp" = none ∧
      pyGet rec' "timestamp" = some (.str tsOut) ∧
      pyGet rec' "gas_timestamp" = some (.str gsOut) ∧
      (∀ k, k ≠ "local_timestamp" → k ≠ "timestamp" → k ≠ "gas_timestamp" →
        pyGet rec' k = pyGet rec k) ∧
      rec' ≠ rec := by
  obtain ⟨r1, hr1⟩ := pyDel_some rec "local_timestamp" hl
  have hts1 : pyGet r1 "timestamp" = some (.str ts) := by
    rw [pyGet_pyDel_other rec r1 _ _ hr1 (by decide)]
    exact ht
  have hgs1 : pyGet (pySet r1 "timestamp" (.str tsOut)) "gas_timestamp" =
      some (.str gs) := by
    rw [pyGet_pySet_other r1 _ _ _ (by decide),
      pyGet_pyDel_other rec r1 _ _ hr1 (by decide)]
    exact hg
  refine ⟨pySet (pySet r1 "timestamp" (.str tsOut)) "gas_timestamp" (.str gsOut),
    ?_, ?_, ?_, ?_, ?_, ?_⟩
  · simp only [csvPrep, hr1, hts1, hts, hgs1, hgs]
  · rw [pyGet_pySet_other _ _ _ _ (by decide), pyGet_pySet_other _ _ _ _ (by decide)]
    exact pyGet_pyDel_self rec r1 _ hnd hr1
  · rw [pyGet_pySet_other _ _ _ _ (by decide), pyGet_pySet_same]
  · rw [pyGet_pySet_same]
  · intro k h1 h2 h3
    rw [pyGet_pySet_other _ _ _ _ h3, pyGet_pySet_other _ _ _ _ h2,
      pyGet_pyDel_other rec r1 _ _ hr1 h1]
  · intro he
    apply hl
    rw [← he]
    rw [pyGet_pySet_other _ _ _ _ (by decide), pyGet_pySet_other _ _ _ _ (by decide)]
    exact pyGet_pyDel_self rec r1 _ hnd hr1

/-- Counterexample to C9 as stated: a concrete decoded record is changed by
the CSV sink's processing — `local_timestamp` is gone and both meter
timestamps are rewritten, so the record the next sink sees differs from the
record produced. -/
theorem claim_C9_counterexample :
    csvPrep [("local_timestamp", PyVal.str "2021-10-24T19:52:40".toList),
        ("timestamp", PyVal.str "211024195235S".toList),
        ("gas_timestamp", PyVal.str "211024195235S".toList),
        ("total_consumption_day", PyVal.int 1)] =
      .ok [("timestamp", PyVal.str "2021-10-24T19:52:35+02:00".toList),
        ("gas_timestamp", PyVal.str "2021-10-24T19:52:35+02:00".toList),
        ("total_consumption_day", PyVal.int 1)] ∧
    ([("timestamp", PyVal.str "2021-10-24T19:52:35+02:00".toList),
      ("gas_timestamp", PyVal.str "2021-10-24T19:52:35+02:00".toList),
      ("total_consumption_day", PyVal.int 1)] : Rec) ≠
      [("local_timestamp", PyVal.str "2021-10-24T19:52:40".toList),
        ("timestamp", PyVal.str "211024195235S".toList),
        ("gas_timestamp", PyVal.str "211024195235S".toList),
        ("total_consumption_day", PyVal.int 1)] := by
  refine ⟨rfl, ?_⟩
  decide

/-- Witness for C9: the hypotheses are discharged at the concrete
four-field record. -/
theorem claim_C9_witness :
    (([("local_timestamp", PyVal.str "2021-10-24T19:52:40".toList),
       ("timestamp", PyVal.str "211024195235S".toList),
       ("gas_timestamp", PyVal.str "211024195235S".toList),
       ("total_consumption_day", PyVal.int 1)] : Rec).map Prod.fst).Nodup ∧
    (∃ rec', csvPrep [("local_timestamp", PyVal.str "2021-10-24T19:52:40".toList),
        ("timestamp", PyVal.str "211024195235S".toList),
        ("gas_timestamp", PyVal.str "211024195235S".toList),
        ("total_consumption_day", PyVal.int 1)] = .ok rec' ∧
      pyGet rec' "local_timestamp" = none ∧
      pyGet rec' "timestamp" = some (.str "2021-10-24T19:52:35+02:00".toList) ∧
      pyGet rec' "gas_timestamp" = some (.str "2021-10-24T19:52:35+02:00".toList) ∧
      (∀ k, k ≠ "local_timestamp" → k ≠ "timestamp" → k ≠ "gas_timestamp" →
        pyGet rec' k =
          pyGet [("local_timestamp", PyVal.str "2021-10-24T19:52:40".toList),
            ("timestamp", PyVal.str "211024195235S".toList),
            ("gas_timestamp", PyVal.str "211024195235S".toList),
            ("total_consumption_day", PyVal.int 1)] k) ∧
      rec' ≠ [("local_timestamp", PyVal.str "2021-10-24T19:52:40".toList),
        ("timestamp", PyVal.str "211024195235S".toList),
        ("gas_timestamp", PyVal.str "211024195235S".toList),
        ("total_consumption_day", PyVal.int 1)]) :=
  ⟨by decide,
   claim_C9 _ "211024195235S".toList "211024195235S".toList
     "2021-10-24T19:52:35+02:00".toList "2021-10-24T19:52:35+02:00".toList
     (by decide) (by decide) rfl rfl rfl rfl⟩

end Smartmeter
